import Mathlib

/- Shallow embedding of the GreenLeaf Organics Norwood store core
(src/main.py, with order construction as in src/app.py): the catalog of
products, order validation and placement, staff stock adjustment, the daily
summary aggregation, and the best-effort persistence of summaries.  The
Cosmos products container is modelled as a keyed partial map from product id
to product record, the orders container as a list with upsert-by-id
semantics, and the Azure SQL daily_summary table as a list of rows carried
in a state that also records every summary artifact generation. -/

namespace GreenLeaf

/-- Product record of the catalog store (src/main.py seed, lines 279-288). -/
structure Product where
  id : String
  name : String
  category : String
  price : ℚ
  stock_quantity : Int
  supplier_id : String
  store_id : String
deriving DecidableEq

/-- Line item of an order (built in src/app.py, lines 103-108). -/
structure OrderItem where
  product_id : String
  product_name : String
  quantity : Int
  unit_price : ℚ
deriving DecidableEq

/-- Customer block of an order (src/app.py, lines 116-119). -/
structure Customer where
  name : String
  email : String
deriving DecidableEq

/-- Order record as assembled by src/app.py, lines 113-123. -/
structure Order where
  id : String
  order_date : String
  customer : Customer
  items : List OrderItem
  order_total : ℚ
  store_id : String
deriving DecidableEq

/-- The products container: a partial map from product id to record. -/
def ProductStore := String → Option Product

/-- Cosmos read_item on the products container (partition fixed to norwood). -/
def read_item (ps : ProductStore) (pid : String) : Option Product := ps pid

/-- Cosmos replace_item: the record stored under the written record's id. -/
def replace_item (ps : ProductStore) (p : Product) : ProductStore :=
  fun i => if i = p.id then some p else ps i

/-- Stock quantity stored under a key, 0 when the key is absent. -/
def stockAt (ps : ProductStore) (pid : String) : Int :=
  match ps pid with
  | none => 0
  | some p => p.stock_quantity

/-- Boolean check that the record stored under a key carries that key as id. -/
def keyedAtB (ps : ProductStore) (pid : String) : Bool :=
  match ps pid with
  | none => true
  | some p => p.id = pid

/-- Staff stock adjustment, src/main.py lines 105-118: read the product, add
the adjustment, clamp at 0, write back, and return the new stock quantity.
A missing product makes the Cosmos read raise, modelled as none. -/
def adjust_stock (ps : ProductStore) (product_id : String) (adjustment : Int) :
    Option (ProductStore × Int) :=
  match read_item ps product_id with
  | none => none
  | some product =>
      let q0 := product.stock_quantity + adjustment
      let q := if q0 < 0 then 0 else q0
      let product := { product with stock_quantity := q }
      some (replace_item ps product, q)

/-- Warning string of src/main.py lines 144-146. -/
def preorderWarning (requested available : Int) : String :=
  "Pre-order placed for " ++ toString (requested - available) ++ " unit(s)"

/-- Warning string of src/main.py lines 153-155. -/
def lowStockWarning (name : String) (qty : Int) : String :=
  "Low stock alert: " ++ name ++ " (" ++ toString qty ++ " left)"

/-- Message string of src/main.py line 140. -/
def oversellMessage (available : Int) : String :=
  "Only " ++ toString available ++ " unit(s) available."

/-- Result dictionary returned by validate_and_place_order; fault stands for
a raised store exception (missing product on read_item). -/
inductive PlaceResult where
  | success (warnings : List String) (order_id : String) (invoice_filename : String)
  | error (message : String) (available : Int) (preorder : Bool)
  | fault
deriving DecidableEq

/-- Outcome of the per-item loop of src/main.py lines 127-155, carrying the
products container as left by the loop. -/
inductive ItemsOutcome where
  | ok (ps : ProductStore) (warnings : List String)
  | oversell (message : String) (available : Int) (ps : ProductStore)
  | fault (ps : ProductStore)

/-- Products container carried by an item-loop outcome. -/
def itemsStore : ItemsOutcome → ProductStore
  | .ok ps _ => ps
  | .oversell _ _ ps => ps
  | .fault ps => ps

/-- Boolean success test on a placement result. -/
def isSuccessResult : PlaceResult → Bool
  | .success _ _ _ => true
  | _ => false

/-- Per-item loop of validate_and_place_order, src/main.py lines 127-155:
read the product, compare requested with available, either abort (no
preorder), clamp and warn (preorder), or fall through; then decrement,
write the product back, and append a low-stock warning below 10. -/
def processItems (allow_preorder : Bool) :
    List OrderItem → ProductStore → List String → ItemsOutcome
  | [], ps, warnings => .ok ps warnings
  | item :: rest, ps, warnings =>
    match read_item ps item.product_id with
    | none => .fault ps
    | some product =>
      let available := product.stock_quantity
      let requested := item.quantity
      if requested > available then
        if !allow_preorder then
          .oversell (oversellMessage available) available ps
        else
          let warnings := warnings ++ [preorderWarning requested available]
          let requested := available
          let product := { product with stock_quantity := product.stock_quantity - requested }
          let ps := replace_item ps product
          let warnings :=
            if product.stock_quantity < 10 then
              warnings ++ [lowStockWarning product.name product.stock_quantity]
            else warnings
          processItems allow_preorder rest ps warnings
      else
        let product := { product with stock_quantity := product.stock_quantity - requested }
        let ps := replace_item ps product
        let warnings :=
          if product.stock_quantity < 10 then
            warnings ++ [lowStockWarning product.name product.stock_quantity]
          else warnings
        processItems allow_preorder rest ps warnings

/-- Modelled from the spec: pdf_utils is not among the sources; section 4.1
step 6 says the invoice artifact reference is derived from the order id, and
src/app.py lines 133 and 226 render it as the name used here. -/
def generate_invoice_pdf (order : Order) : String :=
  "invoice_" ++ order.id ++ ".pdf"

/-- Cosmos upsert_item on the orders container: replace the record with the
same id when present, append otherwise. -/
def upsert_item (os : List Order) (o : Order) : List Order :=
  if os.any (fun x => x.id = o.id) then
    os.map (fun x => if x.id = o.id then o else x)
  else os ++ [o]

/-- Order validation and placement, src/main.py lines 123-165: run the
per-item loop, and on success upsert the order record and return the invoice
reference.  The returned triple is (result, products container, orders
container). -/
def validate_and_place_order (ps : ProductStore) (os : List Order)
    (order : Order) (allow_preorder : Bool) :
    PlaceResult × ProductStore × List Order :=
  match processItems allow_preorder order.items ps [] with
  | .fault ps1 => (.fault, ps1, os)
  | .oversell msg avail ps1 => (.error msg avail true, ps1, os)
  | .ok ps1 warnings =>
      (.success warnings order.id (generate_invoice_pdf order), ps1,
       upsert_item os order)

/-- Sum of the quantities an order's item list requests for one product id. -/
def sumQty (items : List OrderItem) (pid : String) : Int :=
  ((items.filter (fun i => i.product_id = pid)).map OrderItem.quantity).sum

/-- Every stored product decremented by the total quantity the item list
requests for it; products not referenced keep their stock. -/
def decrementedStore (ps : ProductStore) (items : List OrderItem) : ProductStore :=
  fun pid =>
    match ps pid with
    | none => none
    | some p => some { p with stock_quantity := p.stock_quantity - sumQty items pid }

/-- One call against the store state: a staff stock adjustment or an order
placement (the two mutators of the products container in src/main.py). -/
inductive StoreOp where
  | adjust (product_id : String) (adjustment : Int)
  | place (order : Order) (allow_preorder : Bool)

/-- Effect of one call on the pair (products container, orders container). -/
def applyOp (st : ProductStore × List Order) (op : StoreOp) :
    ProductStore × List Order :=
  match op with
  | .adjust pid a =>
      match adjust_stock st.1 pid a with
      | none => st
      | some (ps, _) => (ps, st.2)
  | .place o ap =>
      let r := validate_and_place_order st.1 st.2 o ap
      (r.2.1, r.2.2)

/-- Sequential execution of a list of calls. -/
def runOps (st : ProductStore × List Order) (ops : List StoreOp) :
    ProductStore × List Order :=
  ops.foldl applyOp st

/-- Every product record in the store has non-negative stock. -/
def NonnegStore (ps : ProductStore) : Prop :=
  ∀ pid p, ps pid = some p → 0 ≤ p.stock_quantity

/-- Python dict update product_totals[name] = product_totals.get(name, 0) +
quantity, on an association list in insertion order (src/main.py 187-189). -/
def tallyInsert : List (String × Int) → String → Int → List (String × Int)
  | [], n, q => [(n, q)]
  | e :: rest, n, q =>
      if e.1 = n then (e.1, e.2 + q) :: rest else e :: tallyInsert rest n q

/-- Fold one order's items into the per-product tally. -/
def orderTally (t : List (String × Int)) (o : Order) : List (String × Int) :=
  o.items.foldl (fun t i => tallyInsert t i.product_name i.quantity) t

/-- Per-product unit tally across all line items of the given orders,
src/main.py lines 184-189. -/
def product_totals (orders : List Order) : List (String × Int) :=
  orders.foldl orderTally []

/-- First-match lookup in the tally (Python dict lookup; keys are unique). -/
def tallyCount : List (String × Int) → String → Int
  | [], _ => 0
  | e :: rest, n => if e.1 = n then e.2 else tallyCount rest n

/-- Total units the given orders request for one product name. -/
def unitCount (orders : List Order) (n : String) : Int :=
  (orders.map (fun o =>
    ((o.items.filter (fun i => i.product_name = n)).map OrderItem.quantity).sum)).sum

/-- Name component of Python max over dict keys with the tally as key
function: first key whose value no later value strictly exceeds. -/
def maxTallyFrom (bn : String) (bq : Int) : List (String × Int) → String
  | [] => bn
  | e :: rest => if e.2 > bq then maxTallyFrom e.1 e.2 rest else maxTallyFrom bn bq rest

/-- Value component of the same maximum selection. -/
def maxTallyVal (bq : Int) : List (String × Int) → Int
  | [] => bq
  | e :: rest => if e.2 > bq then maxTallyVal e.2 rest else maxTallyVal bq rest

/-- Python max(product_totals, key=product_totals.get), none on empty
(src/main.py lines 191-194). -/
def pickMax : List (String × Int) → Option String
  | [] => none
  | e :: rest => some (maxTallyFrom e.1 e.2 rest)

/-- Daily summary record, src/main.py lines 196-201. -/
structure DailySummary where
  date : String
  total_orders : Nat
  total_revenue : ℚ
  most_popular_product : Option String
deriving DecidableEq

/-- Daily summary aggregation, src/main.py lines 170-201: filter the orders
container by order_date, count them, sum order_total, tally units per
product name, and pick the most popular by maximum tally. -/
def generate_daily_summary (os : List Order) (summary_date : String) : DailySummary :=
  let orders := os.filter (fun o => o.order_date = summary_date)
  let total_orders := orders.length
  let total_revenue := (orders.map Order.order_total).sum
  let totals := product_totals orders
  { date := summary_date
    total_orders := total_orders
    total_revenue := total_revenue
    most_popular_product := pickMax totals }

/-- Row of the daily_summary table in Azure SQL. -/
structure SummaryRow where
  summary_date : String
  total_orders : Nat
  total_revenue : ℚ
  most_popular_product : Option String
deriving DecidableEq

/-- State of the secondary side effects of store_summary: the daily_summary
table and the record of summary artifact generations, in order. -/
structure SqlState where
  rows : List SummaryRow
  pdfs : List DailySummary
deriving DecidableEq

/-- Row inserted for a summary, src/main.py lines 214-223. -/
def rowOfSummary (s : DailySummary) : SummaryRow :=
  ⟨s.date, s.total_orders, s.total_revenue, s.most_popular_product⟩

/-- The guarded insert of src/main.py lines 211-217: insert only if no row
with that summary_date exists. -/
def insertIfAbsent (rows : List SummaryRow) (r : SummaryRow) : List SummaryRow :=
  if rows.any (fun x => x.summary_date = r.summary_date) then rows
  else rows ++ [r]

/-- Try-block of store_summary, src/main.py lines 207-226: the SQL calls may
raise (sqlOk false), in which case the state at the raise is carried out as
the exception; otherwise the guarded insert commits, the summary artifact is
generated, and true is returned. -/
def store_summary_body (st : SqlState) (sqlOk : Bool) (s : DailySummary) :
    Except SqlState (SqlState × Bool) :=
  if sqlOk then
    let st := { st with rows := insertIfAbsent st.rows (rowOfSummary s) }
    let st := { st with pdfs := st.pdfs ++ [s] }
    .ok (st, true)
  else
    .error st

/-- store_summary, src/main.py lines 206-230: the except-branch swallows the
failure, still generates the summary artifact, and returns false; no
exception escapes (the function is total on the embedded state). -/
def store_summary (st : SqlState) (sqlOk : Bool) (s : DailySummary) :
    SqlState × Bool :=
  match store_summary_body st sqlOk s with
  | .ok r => r
  | .error st1 => ({ st1 with pdfs := st1.pdfs ++ [s] }, false)

/-- Number of rows of the daily_summary table holding a given date. -/
def countDate (rows : List SummaryRow) (d : String) : Nat :=
  (rows.filter (fun r => r.summary_date = d)).length

/-- Write phase of src/main.py lines 133-157 for a single-item order, acting
on a product snapshot read earlier: the stock comparison and the decrement
use the snapshot, as happens when another request wrote between this
request's read and its write (the code carries no concurrency token). -/
def placeFromSnapshot (snapshot : Product) (item : OrderItem)
    (ps : ProductStore) (os : List Order) (order : Order) :
    PlaceResult × ProductStore × List Order :=
  let available := snapshot.stock_quantity
  let requested := item.quantity
  if requested > available then
    (.error (oversellMessage available) available true, ps, os)
  else
    let product := { snapshot with stock_quantity := available - requested }
    let ps := replace_item ps product
    let warnings :=
      if product.stock_quantity < 10 then
        [lowStockWarning product.name product.stock_quantity]
      else []
    (.success warnings order.id (generate_invoice_pdf order), ps,
     upsert_item os order)

/-- Interleaved execution of two single-item placements in which both reads
of src/main.py line 128 happen before either write of line 150: each request
then validates and decrements against its stale snapshot. -/
def interleavedPlacement (ps : ProductStore) (os : List Order)
    (o1 o2 : Order) (i1 i2 : OrderItem) :
    Option ((PlaceResult × PlaceResult) × ProductStore × List Order) :=
  match read_item ps i1.product_id, read_item ps i2.product_id with
  | some p1, some p2 =>
      let r1 := placeFromSnapshot p1 i1 ps os o1
      let r2 := placeFromSnapshot p2 i2 r1.2.1 r1.2.2 o2
      some ((r1.1, r2.1), r2.2.1, r2.2.2)
  | _, _ => none

/-- Continuation on the ok case of an item-loop outcome; errors fall
through, as the early returns of src/main.py lines 138-143 do. -/
def contOutcome (o : ItemsOutcome)
    (f : ProductStore → List String → ItemsOutcome) : ItemsOutcome :=
  match o with
  | .ok ps ws => f ps ws
  | e => e

/-- Units an item list requests for one product name. -/
def itemsUnits (items : List OrderItem) (n : String) : Int :=
  ((items.filter (fun i => i.product_name = n)).map OrderItem.quantity).sum

/- Concrete records used by the counterexamples and witnesses below. -/

/-- Sample product record with whole-number price. -/
def sampleProduct (pid nm : String) (q : Int) : Product :=
  ⟨pid, nm, "Fruit", 3, q, "sup_1", "norwood"⟩

/-- Sample line item with whole-number unit price. -/
def sampleItem (pid nm : String) (q : Int) : OrderItem := ⟨pid, nm, q, 3⟩

/-- Sample order dated 2025-11-03. -/
def sampleOrder (oid : String) (its : List OrderItem) (tot : ℚ) : Order :=
  ⟨oid, "2025-11-03", ⟨"Ada", "ada@example.com"⟩, its, tot, "norwood"⟩

/-- Catalog with two products, stocks 10 and 3. -/
def twoProductStore : ProductStore := fun pid =>
  if pid = "p1" then some (sampleProduct "p1" "P One" 10)
  else if pid = "p2" then some (sampleProduct "p2" "P Two" 3) else none

/-- Two-item order whose second item oversells product p2. -/
def partialOrder : Order :=
  sampleOrder "o1" [sampleItem "p1" "P One" 1, sampleItem "p2" "P Two" 5] 18

/-- Placement of the two-item overselling order without preorder. -/
def partialRun : PlaceResult × ProductStore × List Order :=
  validate_and_place_order twoProductStore [] partialOrder false

/-- Single-item order overselling product p2 at its first item. -/
def oversellOrder : Order := sampleOrder "o4" [sampleItem "p2" "P Two" 5] 15

/-- Catalog with one product, apple, stock 20. -/
def appleStore : ProductStore := fun pid =>
  if pid = "prod_apple" then some (sampleProduct "prod_apple" "Apple" 20) else none

/-- Order requesting 25 apples against stock 20. -/
def preorderOrder : Order :=
  sampleOrder "o2" [sampleItem "prod_apple" "Apple" 25] 75

/-- Three-item order with a repeated product, total within stock. -/
def bulkOrder : Order :=
  sampleOrder "o3"
    [sampleItem "p1" "P One" 4, sampleItem "p1" "P One" 6, sampleItem "p2" "P Two" 3] 39

/-- First order under the derived id shared by both duplicate orders. -/
def dupOrder1 : Order :=
  sampleOrder "order_2025-11-03_ada@example.com" [sampleItem "prod_apple" "Apple" 1] 3

/-- Second order under the same derived id but different content. -/
def dupOrder2 : Order :=
  sampleOrder "order_2025-11-03_ada@example.com" [sampleItem "prod_apple" "Apple" 2] 6

/-- First duplicate-id placement. -/
def dupStep1 : PlaceResult × ProductStore × List Order :=
  validate_and_place_order appleStore [] dupOrder1 false

/-- Second duplicate-id placement, on the state the first one left. -/
def dupStep2 : PlaceResult × ProductStore × List Order :=
  validate_and_place_order dupStep1.2.1 dupStep1.2.2 dupOrder2 false

/-- Order with an id distinct from the duplicate id. -/
def otherOrder : Order := sampleOrder "o9" [sampleItem "prod_apple" "Apple" 1] 3

/-- Item requesting 12 apples, used by both racing orders. -/
def raceItem : OrderItem := sampleItem "prod_apple" "Apple" 12

/-- First racing order. -/
def raceOrder1 : Order := sampleOrder "r1" [raceItem] 36

/-- Second racing order. -/
def raceOrder2 : Order := sampleOrder "r2" [raceItem] 36

/-- The race of section 8 of the spec: both 12-apple orders read stock 20
before either writes. -/
def raceOutcome : Option ((PlaceResult × PlaceResult) × ProductStore × List Order) :=
  interleavedPlacement appleStore [] raceOrder1 raceOrder2 raceItem raceItem

/-- Sample sequence of stock adjustments and placements. -/
def sampleOps : List StoreOp :=
  [.adjust "prod_apple" (-30), .place preorderOrder true,
   .adjust "prod_apple" 5, .place dupOrder1 false]

/-- Empty secondary-store state. -/
def emptySql : SqlState := ⟨[], []⟩

/-- Sample daily summary. -/
def sampleSummary : DailySummary := ⟨"2025-11-03", 2, 14, some "Apple"⟩

/-- Sample orders list for the summary claims. -/
def summaryOrders : List Order :=
  [sampleOrder "a" [sampleItem "p1" "Apple" 3, sampleItem "p2" "Banana" 2] 10,
   sampleOrder "b" [sampleItem "p1" "Apple" 1] 4]

/- Helper lemmas about the item loop. -/

theorem contOutcome_ok (ps : ProductStore) (ws : List String)
    (f : ProductStore → List String → ItemsOutcome) :
    contOutcome (.ok ps ws) f = f ps ws := rfl

theorem processItems_append (ap : Bool) (xs ys : List OrderItem)
    (ps : ProductStore) (ws : List String) :
    processItems ap (xs ++ ys) ps ws =
      contOutcome (processItems ap xs ps ws) (processItems ap ys) := by
  induction xs generalizing ps ws with
  | nil => simp [processItems, contOutcome]
  | cons item rest ih =>
      simp only [List.cons_append, processItems]
      cases hread : read_item ps item.product_id with
      | none => simp [contOutcome]
      | some product =>
          dsimp only
          by_cases hgt : item.quantity > product.stock_quantity
          · rw [if_pos hgt, if_pos hgt]
            cases ap with
            | false => simp [contOutcome]
            | true => simp only [Bool.not_true, Bool.false_eq_true, if_false]; exact ih _ _
          · rw [if_neg hgt, if_neg hgt]; exact ih _ _

theorem processItems_oversell_step (item : OrderItem) (rest : List OrderItem)
    (ps : ProductStore) (ws : List String) (p : Product)
    (hread : read_item ps item.product_id = some p)
    (hover : p.stock_quantity < item.quantity) :
    processItems false (item :: rest) ps ws =
      .oversell (oversellMessage p.stock_quantity) p.stock_quantity ps := by
  simp only [processItems, hread]
  rw [if_pos hover]
  simp

theorem processItems_preorder_step (item : OrderItem) (rest : List OrderItem)
    (ps : ProductStore) (ws : List String) (p : Product)
    (hread : read_item ps item.product_id = some p)
    (hover : p.stock_quantity < item.quantity) :
    processItems true (item :: rest) ps ws =
      processItems true rest (replace_item ps { p with stock_quantity := 0 })
        (ws ++ [preorderWarning item.quantity p.stock_quantity,
                lowStockWarning p.name 0]) := by
  simp only [processItems, hread]
  rw [if_pos hover]
  simp [List.append_assoc]

theorem place_singleton_preorder (ps : ProductStore) (os : List Order)
    (order : Order) (item : OrderItem) (p : Product)
    (hitems : order.items = [item])
    (hread : read_item ps item.product_id = some p)
    (hover : p.stock_quantity < item.quantity) :
    validate_and_place_order ps os order true =
      (.success [preorderWarning item.quantity p.stock_quantity,
                 lowStockWarning p.name 0]
        order.id (generate_invoice_pdf order),
       replace_item ps { p with stock_quantity := 0 },
       upsert_item os order) := by
  unfold validate_and_place_order
  rw [hitems, show ([item] : List OrderItem) = item :: [] from rfl,
      processItems_preorder_step item [] ps [] p hread hover]
  simp [processItems]

theorem mem_upsert_item_of_ne (os : List Order) (o prev : Order)
    (hmem : prev ∈ os) (hid : prev.id ≠ o.id) : prev ∈ upsert_item os o := by
  unfold upsert_item
  cases hany : os.any (fun x => x.id = o.id) with
  | true =>
      simp only [hany, if_true]
      exact List.mem_map.mpr ⟨prev, hmem, if_neg hid⟩
  | false =>
      simp only [hany, Bool.false_eq_true, if_false]
      exact List.mem_append_left _ hmem

/- Helper lemmas about the daily_summary table. -/

theorem countDate_eq_zero (rows : List SummaryRow) (d : String)
    (h : rows.any (fun x => x.summary_date = d) = false) : countDate rows d = 0 := by
  unfold countDate
  rw [List.length_eq_zero, List.filter_eq_nil_iff]
  intro a ha
  exact (List.any_eq_false.mp h) a ha

theorem countDate_pos (rows : List SummaryRow) (d : String)
    (h : rows.any (fun x => x.summary_date = d) = true) : 1 ≤ countDate rows d := by
  obtain ⟨x, hx, hxd⟩ := List.any_eq_true.mp h
  exact List.length_pos_of_mem (List.mem_filter.mpr ⟨hx, hxd⟩)

theorem countDate_append_one (rows : List SummaryRow) (d : String) (r : SummaryRow)
    (hr : r.summary_date = d) : countDate (rows ++ [r]) d = countDate rows d + 1 := by
  unfold countDate
  rw [List.filter_append]
  simp [hr]

theorem insertIfAbsent_idem (rows : List SummaryRow) (r : SummaryRow) :
    insertIfAbsent (insertIfAbsent rows r) r = insertIfAbsent rows r := by
  unfold insertIfAbsent
  cases hany : rows.any (fun x => x.summary_date = r.summary_date) with
  | true => simp [hany]
  | false => simp [hany, List.any_append]

theorem countDate_insertIfAbsent (rows : List SummaryRow) (r : SummaryRow) (d : String)
    (hr : r.summary_date = d) (h : countDate rows d ≤ 1) :
    countDate (insertIfAbsent rows r) d = 1 := by
  unfold insertIfAbsent
  rw [hr]
  cases hany : rows.any (fun x => x.summary_date = d) with
  | true =>
      simp only [hany, if_true]
      have h1 := countDate_pos rows d hany
      omega
  | false =>
      simp only [hany, Bool.false_eq_true, if_false]
      rw [countDate_append_one rows d r hr, countDate_eq_zero rows d hany]

/-- C7: store_summary surfaces the durable-store outcome as its boolean
return, never as an exception, appends exactly one summary artifact whether
the write succeeded or failed, and leaves the table unchanged on failure. -/
theorem claim_C7 (st : SqlState) (sqlOk : Bool) (s : DailySummary) :
    (store_summary st sqlOk s).2 = sqlOk ∧
    (store_summary st sqlOk s).1.pdfs = st.pdfs ++ [s] ∧
    (store_summary st false s).1.rows = st.rows := by
  cases sqlOk <;> simp [store_summary, store_summary_body]

/-- C6: starting from a table holding at most one row for the summary date,
two successful store_summary calls with the same summary leave exactly one
row for that date, the second call inserts nothing, and the artifact
generator runs on both calls. -/
theorem claim_C6 (st : SqlState) (s : DailySummary)
    (h : countDate st.rows s.date ≤ 1) :
    countDate (store_summary (store_summary st true s).1 true s).1.rows s.date = 1 ∧
    (store_summary (store_summary st true s).1 true s).1.rows =
      (store_summary st true s).1.rows ∧
    (store_summary (store_summary st true s).1 true s).1.pdfs = st.pdfs ++ [s, s] := by
  simp only [store_summary, store_summary_body, if_true]
  refine ⟨?_, ?_, by simp⟩
  · rw [insertIfAbsent_idem]
    exact countDate_insertIfAbsent st.rows (rowOfSummary s) s.date rfl h
  · rw [insertIfAbsent_idem]

theorem claim_C6_witness :
    countDate emptySql.rows sampleSummary.date ≤ 1 ∧
    (countDate (store_summary (store_summary emptySql true sampleSummary).1 true
        sampleSummary).1.rows sampleSummary.date = 1 ∧
     (store_summary (store_summary emptySql true sampleSummary).1 true
        sampleSummary).1.rows = (store_summary emptySql true sampleSummary).1.rows ∧
     (store_summary (store_summary emptySql true sampleSummary).1 true
        sampleSummary).1.pdfs = emptySql.pdfs ++ [sampleSummary, sampleSummary]) :=
  ⟨by decide, claim_C6 emptySql sampleSummary (by decide)⟩

/-- C9: under the interleaving in which both placements read the product
before either writes it, both 12-unit orders against stock 20 return
success, both order records are persisted, and the final stock is 8: the 20
units are double-sold (24 units confirmed, only 12 deducted), contradicting
the required single accounting with exactly one fully-filled success. -/
theorem claim_C9 :
    raceOutcome.map (fun z => isSuccessResult z.1.1) = some true ∧
    raceOutcome.map (fun z => isSuccessResult z.1.2) = some true ∧
    raceOutcome.map (fun z => stockAt z.2.1 "prod_apple") = some 8 ∧
    raceOutcome.map (fun z => z.2.2) = some [raceOrder1, raceOrder2] :=
  ⟨by decide, by decide, by decide, by decide⟩

/-- C8 counterexample: two successful placements whose derived order ids
coincide are not append-only: the second upsert replaces the first stored
record, so the previously stored order does not survive unchanged. -/
theorem claim_C8_counterexample :
    isSuccessResult dupStep1.1 = true ∧ isSuccessResult dupStep2.1 = true ∧
    dupStep1.2.2 = [dupOrder1] ∧ dupStep2.2.2 = [dupOrder2] ∧
    dupOrder1 ≠ dupOrder2 ∧ dupOrder1 ∉ dupStep2.2.2 :=
  ⟨by decide, by decide, by decide, by decide, by decide, by decide⟩

/-- C8 amended: a placement leaves every previously stored order whose id
differs from the new order's id in the store; only a record sharing the
derived id is replaced by the upsert. -/
theorem claim_C8 (ps : ProductStore) (os : List Order) (order : Order)
    (ap : Bool) (prev : Order) (hmem : prev ∈ os) (hid : prev.id ≠ order.id) :
    prev ∈ (validate_and_place_order ps os order ap).2.2 := by
  unfold validate_and_place_order
  cases hp : processItems ap order.items ps [] with
  | ok ps1 ws => exact mem_upsert_item_of_ne os order prev hmem hid
  | oversell m a ps1 => exact hmem
  | fault ps1 => exact hmem

theorem claim_C8_witness :
    dupOrder1 ∈ [dupOrder1] ∧ dupOrder1.id ≠ otherOrder.id ∧
    dupOrder1 ∈ (validate_and_place_order appleStore [dupOrder1] otherOrder false).2.2 :=
  ⟨by decide, by decide,
   claim_C8 appleStore [dupOrder1] otherOrder false dupOrder1 (by decide) (by decide)⟩

/-- C1 counterexample: a two-item order whose second item oversells is
rejected with the failing item's available value and no order record, but
the first item's decrement is already committed: product p1 drops from 10
to 9, so not every referenced product is left unchanged. -/
theorem claim_C1_counterexample :
    partialRun.1 = .error (oversellMessage 3) 3 true ∧
    partialRun.2.2 = [] ∧
    (partialRun.2.1 "p1").map Product.stock_quantity = some 9 ∧
    (partialRun.2.1 "p1").map Product.stock_quantity ≠
      (twoProductStore "p1").map Product.stock_quantity :=
  ⟨by decide, by decide, by decide, by decide⟩

/-- C1 amended: when the item loop reaches an item whose requested quantity
exceeds the available stock and preorder is off, the call returns an error
carrying that item's available value, persists no order record, and leaves
the products container exactly as the already-committed decrements of the
earlier items left it (fully unchanged when the failing item is first); the
earlier decrements are not rolled back. -/
theorem claim_C1 (ps psMid : ProductStore) (os : List Order) (order : Order)
    (pre : List OrderItem) (item : OrderItem) (rest : List OrderItem)
    (wsMid : List String) (prod : Product)
    (hitems : order.items = pre ++ item :: rest)
    (hpre : processItems false pre ps [] = .ok psMid wsMid)
    (hread : read_item psMid item.product_id = some prod)
    (hover : prod.stock_quantity < item.quantity) :
    validate_and_place_order ps os order false =
      (.error (oversellMessage prod.stock_quantity) prod.stock_quantity true,
       psMid, os) := by
  unfold validate_and_place_order
  rw [hitems, processItems_append, hpre, contOutcome_ok,
      processItems_oversell_step item rest psMid wsMid prod hread hover]

theorem claim_C1_witness :
    (oversellOrder.items = ([] : List OrderItem) ++ sampleItem "p2" "P Two" 5 :: [] ∧
     processItems false [] twoProductStore [] = .ok twoProductStore [] ∧
     read_item twoProductStore (sampleItem "p2" "P Two" 5).product_id =
       some (sampleProduct "p2" "P Two" 3) ∧
     (sampleProduct "p2" "P Two" 3).stock_quantity < (sampleItem "p2" "P Two" 5).quantity) ∧
    validate_and_place_order twoProductStore [] oversellOrder false =
      (.error (oversellMessage (sampleProduct "p2" "P Two" 3).stock_quantity)
        (sampleProduct "p2" "P Two" 3).stock_quantity true, twoProductStore, []) :=
  ⟨⟨by decide, rfl, by decide, by decide⟩,
   claim_C1 twoProductStore twoProductStore [] oversellOrder []
     (sampleItem "p2" "P Two" 5) [] [] (sampleProduct "p2" "P Two" 3)
     (by decide) rfl (by decide) (by decide)⟩

/- Non-negativity of stock under every mutator. -/

theorem nonnegStore_replace (ps : ProductStore) (p : Product)
    (h : NonnegStore ps) (hp : 0 ≤ p.stock_quantity) :
    NonnegStore (replace_item ps p) := by
  intro pid q hq
  unfold replace_item at hq
  split at hq
  · injection hq with h1; subst h1; exact hp
  · exact h _ _ hq

theorem processItems_nonneg (ap : Bool) (items : List OrderItem) :
    ∀ (ps : ProductStore) (ws : List String), NonnegStore ps →
      NonnegStore (itemsStore (processItems ap items ps ws)) := by
  induction items with
  | nil => intro ps ws h; exact h
  | cons item rest ih =>
      intro ps ws h
      simp only [processItems]
      cases hread : read_item ps item.product_id with
      | none => exact h
      | some product =>
          dsimp only
          by_cases hgt : item.quantity > product.stock_quantity
          · rw [if_pos hgt]
            cases ap with
            | false => exact h
            | true =>
                refine ih _ _ (nonnegStore_replace _ _ h ?_)
                simp
          · rw [if_neg hgt]
            refine ih _ _ (nonnegStore_replace _ _ h ?_)
            have h0 := h _ _ hread
            dsimp only
            omega

theorem adjust_stock_nonneg (ps : ProductStore) (pid : String) (a : Int)
    (ps1 : ProductStore) (q : Int) (h : NonnegStore ps)
    (hadj : adjust_stock ps pid a = some (ps1, q)) : NonnegStore ps1 := by
  unfold adjust_stock at hadj
  cases hread : read_item ps pid with
  | none => rw [hread] at hadj; cases hadj
  | some product =>
      rw [hread] at hadj
      rw [Option.some.injEq, Prod.mk.injEq] at hadj
      obtain ⟨h1, h2⟩ := hadj
      subst h1
      apply nonnegStore_replace _ _ h
      dsimp only
      split
      · exact le_refl 0
      · omega

theorem validate_store_eq (ps : ProductStore) (os : List Order)
    (order : Order) (ap : Bool) :
    (validate_and_place_order ps os order ap).2.1 =
      itemsStore (processItems ap order.items ps []) := by
  unfold validate_and_place_order
  cases processItems ap order.items ps [] <;> rfl

theorem applyOp_nonneg (st : ProductStore × List Order) (op : StoreOp)
    (h : NonnegStore st.1) : NonnegStore (applyOp st op).1 := by
  cases op with
  | adjust pid a =>
      unfold applyOp
      dsimp only
      cases hadj : adjust_stock st.1 pid a with
      | none => exact h
      | some r =>
          obtain ⟨ps1, q⟩ := r
          exact adjust_stock_nonneg st.1 pid a ps1 q h hadj
  | place o ap =>
      unfold applyOp
      dsimp only
      rw [validate_store_eq]
      exact processItems_nonneg ap o.items st.1 [] h

/-- C2: starting from a catalog whose stocks are all non-negative, any
sequence of adjust_stock and validate_and_place_order calls keeps every
stored stock_quantity non-negative: adjust_stock clamps at 0 and the order
engine decrements by at most the available stock (clamping to it on
preorder). -/
theorem claim_C2 (ps : ProductStore) (os : List Order) (ops : List StoreOp)
    (h : NonnegStore ps) : NonnegStore (runOps (ps, os) ops).1 := by
  have H : ∀ (ops1 : List StoreOp) (st : ProductStore × List Order),
      NonnegStore st.1 → NonnegStore (runOps st ops1).1 := by
    intro ops1
    induction ops1 with
    | nil => intro st hst; exact hst
    | cons op rest ih =>
        intro st hst
        exact ih (applyOp st op) (applyOp_nonneg st op hst)
  exact H ops (ps, os) h

theorem claim_C2_witness :
    NonnegStore appleStore ∧ NonnegStore (runOps (appleStore, []) sampleOps).1 := by
  have h : NonnegStore appleStore := by
    intro pid p hp
    unfold appleStore at hp
    split at hp
    · injection hp with h1; subst h1; decide
    · cases hp
  exact ⟨h, claim_C2 appleStore [] sampleOps h⟩

/-- C4: for an item whose requested quantity exceeds the available stock,
the preorder path of the item loop sets that product's stock to exactly 0
and appends the preorder warning for the shortfall followed by the
low-stock warning at 0 (0 being below 10); a single-item order of this kind
therefore succeeds with exactly those two warnings. -/
theorem claim_C4 (ps : ProductStore) (os : List Order) (order : Order)
    (item : OrderItem) (p : Product)
    (hitems : order.items = [item])
    (hread : read_item ps item.product_id = some p)
    (hover : p.stock_quantity < item.quantity) :
    (∀ (rest : List OrderItem) (ws : List String),
        processItems true (item :: rest) ps ws =
          processItems true rest (replace_item ps { p with stock_quantity := 0 })
            (ws ++ [preorderWarning item.quantity p.stock_quantity,
                    lowStockWarning p.name 0])) ∧
    validate_and_place_order ps os order true =
      (.success [preorderWarning item.quantity p.stock_quantity,
                 lowStockWarning p.name 0]
        order.id (generate_invoice_pdf order),
       replace_item ps { p with stock_quantity := 0 },
       upsert_item os order) :=
  ⟨fun rest ws => processItems_preorder_step item rest ps ws p hread hover,
   place_singleton_preorder ps os order item p hitems hread hover⟩

theorem claim_C4_witness :
    (preorderOrder.items = [sampleItem "prod_apple" "Apple" 25] ∧
     read_item appleStore (sampleItem "prod_apple" "Apple" 25).product_id =
       some (sampleProduct "prod_apple" "Apple" 20) ∧
     (sampleProduct "prod_apple" "Apple" 20).stock_quantity <
       (sampleItem "prod_apple" "Apple" 25).quantity) ∧
    preorderWarning 25 20 = "Pre-order placed for 5 unit(s)" ∧
    lowStockWarning "Apple" 0 = "Low stock alert: Apple (0 left)" ∧
    validate_and_place_order appleStore [] preorderOrder true =
      (.success [preorderWarning (sampleItem "prod_apple" "Apple" 25).quantity
                   (sampleProduct "prod_apple" "Apple" 20).stock_quantity,
                 lowStockWarning (sampleProduct "prod_apple" "Apple" 20).name 0]
        preorderOrder.id (generate_invoice_pdf preorderOrder),
       replace_item appleStore
         { sampleProduct "prod_apple" "Apple" 20 with stock_quantity := 0 },
       upsert_item [] preorderOrder) :=
  ⟨⟨by decide, by decide, by decide⟩, by decide, by decide,
   (claim_C4 appleStore [] preorderOrder (sampleItem "prod_apple" "Apple" 25)
      (sampleProduct "prod_apple" "Apple" 20) (by decide) (by decide) (by decide)).2⟩

/-- C10: the engine never modifies the order it is given: on the preorder
path only the local copy of the requested quantity is clamped, so the
persisted record is the input order itself with its original item
quantities and order_total, and the daily summary over the resulting store
counts the original (unshipped-inclusive) quantities and revenue. -/
theorem claim_C10 (ps : ProductStore) (order : Order) (item : OrderItem)
    (p : Product)
    (hitems : order.items = [item])
    (hread : read_item ps item.product_id = some p)
    (hover : p.stock_quantity < item.quantity) :
    (validate_and_place_order ps [] order true).2.2 = [order] ∧
    (validate_and_place_order ps [] order true).2.1 =
      replace_item ps { p with stock_quantity := 0 } ∧
    generate_daily_summary (validate_and_place_order ps [] order true).2.2
        order.order_date =
      { date := order.order_date, total_orders := 1,
        total_revenue := order.order_total,
        most_popular_product := some item.product_name } ∧
    product_totals [order] = [(item.product_name, item.quantity)] := by
  have hplace := place_singleton_preorder ps [] order item p hitems hread hover
  have h22 : (validate_and_place_order ps [] order true).2.2 = [order] := by
    rw [hplace]; rfl
  have htot : product_totals [order] = [(item.product_name, item.quantity)] := by
    simp [product_totals, orderTally, hitems, tallyInsert]
  refine ⟨h22, ?_, ?_, htot⟩
  · rw [hplace]
  · rw [h22]
    simp [generate_daily_summary, htot, pickMax, maxTallyFrom]

theorem claim_C10_witness :
    (preorderOrder.items = [sampleItem "prod_apple" "Apple" 25] ∧
     read_item appleStore (sampleItem "prod_apple" "Apple" 25).product_id =
       some (sampleProduct "prod_apple" "Apple" 20) ∧
     (sampleProduct "prod_apple" "Apple" 20).stock_quantity <
       (sampleItem "prod_apple" "Apple" 25).quantity) ∧
    ((validate_and_place_order appleStore [] preorderOrder true).2.2 =
       [preorderOrder] ∧
     (validate_and_place_order appleStore [] preorderOrder true).2.1 =
       replace_item appleStore
         { sampleProduct "prod_apple" "Apple" 20 with stock_quantity := 0 } ∧
     generate_daily_summary
         (validate_and_place_order appleStore [] preorderOrder true).2.2
         preorderOrder.order_date =
       { date := preorderOrder.order_date, total_orders := 1,
         total_revenue := preorderOrder.order_total,
         most_popular_product :=
           some (sampleItem "prod_apple" "Apple" 25).product_name } ∧
     product_totals [preorderOrder] =
       [((sampleItem "prod_apple" "Apple" 25).product_name,
         (sampleItem "prod_apple" "Apple" 25).quantity)]) :=
  ⟨⟨by decide, by decide, by decide⟩,
   claim_C10 appleStore preorderOrder (sampleItem "prod_apple" "Apple" 25)
     (sampleProduct "prod_apple" "Apple" 20) (by decide) (by decide) (by decide)⟩

/- Lemmas about per-product requested totals and the all-available run. -/

theorem sumQty_cons (i : OrderItem) (rest : List OrderItem) (pid : String) :
    sumQty (i :: rest) pid =
      (if i.product_id = pid then i.quantity else 0) + sumQty rest pid := by
  by_cases h : i.product_id = pid
  · simp [sumQty, List.filter_cons, h]
  · simp [sumQty, List.filter_cons, h]

theorem sumQty_nonneg (items : List OrderItem) (pid : String)
    (h : ∀ i ∈ items, 0 ≤ i.quantity) : 0 ≤ sumQty items pid := by
  induction items with
  | nil => simp [sumQty]
  | cons i rest ih =>
      rw [sumQty_cons]
      have h1 := h i (List.mem_cons_self i rest)
      have h2 := ih (fun j hj => h j (List.mem_cons_of_mem i hj))
      split <;> omega

theorem decrementedStore_nil (ps : ProductStore) : decrementedStore ps [] = ps := by
  funext pid
  unfold decrementedStore
  cases hp : ps pid with
  | none => rfl
  | some p => simp [sumQty]

theorem decrementedStore_step (ps : ProductStore) (item : OrderItem)
    (rest : List OrderItem) (p : Product)
    (hp : ps item.product_id = some p) (hid : p.id = item.product_id) :
    decrementedStore
        (replace_item ps
          { p with stock_quantity := p.stock_quantity - item.quantity }) rest
      = decrementedStore ps (item :: rest) := by
  funext pid
  unfold decrementedStore replace_item
  by_cases hpid : pid = item.product_id
  · subst hpid
    rw [if_pos (show item.product_id =
        ({ p with stock_quantity := p.stock_quantity - item.quantity } : Product).id
      from hid.symm)]
    rw [hp]
    dsimp only
    have hsq : sumQty (item :: rest) item.product_id =
        item.quantity + sumQty rest item.product_id := by
      rw [sumQty_cons]; simp
    rw [hsq, ← sub_sub]
  · rw [if_neg (fun h => hpid (h.trans hid))]
    cases hq2 : ps pid with
    | none => rfl
    | some q =>
        dsimp only
        rw [sumQty_cons, if_neg (fun h => hpid h.symm), zero_add]

theorem processItems_commit_step (ap : Bool) (item : OrderItem)
    (rest : List OrderItem) (ps : ProductStore) (ws : List String) (p : Product)
    (hread : read_item ps item.product_id = some p)
    (hle : item.quantity ≤ p.stock_quantity) :
    processItems ap (item :: rest) ps ws =
      processItems ap rest
        (replace_item ps { p with stock_quantity := p.stock_quantity - item.quantity })
        (if p.stock_quantity - item.quantity < 10 then
           ws ++ [lowStockWarning p.name (p.stock_quantity - item.quantity)]
         else ws) := by
  simp only [processItems, hread]
  rw [if_neg (show ¬ item.quantity > p.stock_quantity by omega)]

theorem processItems_all_available (items : List OrderItem) :
    ∀ (ps : ProductStore) (ws : List String),
      (∀ i ∈ items, keyedAtB ps i.product_id = true) →
      (∀ i ∈ items, (ps i.product_id).isSome = true) →
      (∀ i ∈ items, 0 ≤ i.quantity) →
      (∀ i ∈ items, sumQty items i.product_id ≤ stockAt ps i.product_id) →
      ∃ ws1, processItems false items ps ws = .ok (decrementedStore ps items) ws1 := by
  induction items with
  | nil =>
      intro ps ws _ _ _ _
      exact ⟨ws, by rw [decrementedStore_nil]; rfl⟩
  | cons item rest ih =>
      intro ps ws hkey hex hq hsum
      have hexi := hex item (List.mem_cons_self item rest)
      obtain ⟨p, hp⟩ : ∃ p, ps item.product_id = some p := by
        cases hps : ps item.product_id with
        | none => rw [hps] at hexi; cases hexi
        | some p => exact ⟨p, rfl⟩
      have hkeyi : p.id = item.product_id := by
        have h1 := hkey item (List.mem_cons_self item rest)
        unfold keyedAtB at h1
        rw [hp] at h1
        exact of_decide_eq_true h1
      have hstock : stockAt ps item.product_id = p.stock_quantity := by
        unfold stockAt; rw [hp]
      have hsumi : item.quantity + sumQty rest item.product_id ≤ p.stock_quantity := by
        have h1 := hsum item (List.mem_cons_self item rest)
        rw [hstock, sumQty_cons] at h1
        simpa using h1
      have hrest0 : 0 ≤ sumQty rest item.product_id :=
        sumQty_nonneg rest item.product_id
          (fun j hj => hq j (List.mem_cons_of_mem item hj))
      have hle : item.quantity ≤ p.stock_quantity := by omega
      have hlook : ∀ pid,
          replace_item ps { p with stock_quantity := p.stock_quantity - item.quantity } pid
            = if pid = item.product_id then
                some { p with stock_quantity := p.stock_quantity - item.quantity }
              else ps pid := by
        intro pid
        unfold replace_item
        rw [show ({ p with stock_quantity := p.stock_quantity - item.quantity } :
            Product).id = item.product_id from hkeyi]
      have hkey1 : ∀ i ∈ rest,
          keyedAtB (replace_item ps
            { p with stock_quantity := p.stock_quantity - item.quantity })
            i.product_id = true := by
        intro i hi
        by_cases hc : i.product_id = item.product_id
        · unfold keyedAtB
          rw [hlook, if_pos hc]
          exact decide_eq_true (hkeyi.trans hc.symm)
        · unfold keyedAtB
          rw [hlook, if_neg hc]
          have h2 := hkey i (List.mem_cons_of_mem item hi)
          unfold keyedAtB at h2
          exact h2
      have hex1 : ∀ i ∈ rest,
          ((replace_item ps
            { p with stock_quantity := p.stock_quantity - item.quantity })
            i.product_id).isSome = true := by
        intro i hi
        rw [hlook]
        by_cases hc : i.product_id = item.product_id
        · rw [if_pos hc]; rfl
        · rw [if_neg hc]; exact hex i (List.mem_cons_of_mem item hi)
      have hq1 : ∀ i ∈ rest, 0 ≤ i.quantity :=
        fun i hi => hq i (List.mem_cons_of_mem item hi)
      have hsum1 : ∀ i ∈ rest,
          sumQty rest i.product_id ≤
            stockAt (replace_item ps
              { p with stock_quantity := p.stock_quantity - item.quantity })
              i.product_id := by
        intro i hi
        by_cases hc : i.product_id = item.product_id
        · have hs : stockAt (replace_item ps
              { p with stock_quantity := p.stock_quantity - item.quantity })
              i.product_id = p.stock_quantity - item.quantity := by
            unfold stockAt; rw [hlook, if_pos hc]
          rw [hs, hc]
          omega
        · have hs : stockAt (replace_item ps
              { p with stock_quantity := p.stock_quantity - item.quantity })
              i.product_id = stockAt ps i.product_id := by
            unfold stockAt; rw [hlook, if_neg hc]
          rw [hs]
          have h3 := hsum i (List.mem_cons_of_mem item hi)
          rw [sumQty_cons, if_neg (fun h => hc h.symm), zero_add] at h3
          exact h3
      obtain ⟨ws2, hrec⟩ := ih
        (replace_item ps { p with stock_quantity := p.stock_quantity - item.quantity })
        (if p.stock_quantity - item.quantity < 10 then
           ws ++ [lowStockWarning p.name (p.stock_quantity - item.quantity)]
         else ws)
        hkey1 hex1 hq1 hsum1
      refine ⟨ws2, ?_⟩
      rw [processItems_commit_step false item rest ps ws p hp hle, hrec,
          decrementedStore_step ps item rest p hp hkeyi]

/-- C3: when every item has non-negative quantity and, product by product,
the total requested quantity fits in the current stock (so same-product
repeats accumulate), the placement without preorder succeeds, every
referenced product is decremented by exactly the total quantity requested
for it, and the order record is persisted. -/
theorem claim_C3 (ps : ProductStore) (os : List Order) (order : Order)
    (hkey : ∀ i ∈ order.items, keyedAtB ps i.product_id = true)
    (hex : ∀ i ∈ order.items, (ps i.product_id).isSome = true)
    (hq : ∀ i ∈ order.items, 0 ≤ i.quantity)
    (hsum : ∀ i ∈ order.items,
      sumQty order.items i.product_id ≤ stockAt ps i.product_id) :
    ∃ ws, validate_and_place_order ps os order false =
      (.success ws order.id (generate_invoice_pdf order),
       decrementedStore ps order.items, upsert_item os order) := by
  obtain ⟨ws1, h1⟩ := processItems_all_available order.items ps [] hkey hex hq hsum
  refine ⟨ws1, ?_⟩
  unfold validate_and_place_order
  rw [h1]

theorem claim_C3_witness :
    ((∀ i ∈ bulkOrder.items, keyedAtB twoProductStore i.product_id = true) ∧
     (∀ i ∈ bulkOrder.items, (twoProductStore i.product_id).isSome = true) ∧
     (∀ i ∈ bulkOrder.items, 0 ≤ i.quantity) ∧
     (∀ i ∈ bulkOrder.items,
       sumQty bulkOrder.items i.product_id ≤ stockAt twoProductStore i.product_id)) ∧
    ∃ ws, validate_and_place_order twoProductStore [] bulkOrder false =
      (.success ws bulkOrder.id (generate_invoice_pdf bulkOrder),
       decrementedStore twoProductStore bulkOrder.items, upsert_item [] bulkOrder) :=
  ⟨⟨by decide, by decide, by decide, by decide⟩,
   claim_C3 twoProductStore [] bulkOrder (by decide) (by decide) (by decide) (by decide)⟩

/- Lemmas about the per-product tally and the maximum selection. -/

theorem tallyCount_tallyInsert (t : List (String × Int)) (n m : String) (q : Int) :
    tallyCount (tallyInsert t m q) n =
      if n = m then tallyCount t n + q else tallyCount t n := by
  induction t with
  | nil =>
      by_cases h : n = m
      · subst h; simp [tallyInsert, tallyCount]
      · simp [tallyInsert, tallyCount, h, Ne.symm h]
  | cons e rest ih =>
      by_cases h1 : e.1 = m
      · simp only [tallyInsert, if_pos h1]
        by_cases h2 : e.1 = n
        · simp only [tallyCount, if_pos h2, if_pos (h2.symm.trans h1)]
        · have h3 : ¬ n = m := fun hh => h2 (h1.trans hh.symm)
          simp only [tallyCount, if_neg h2, if_neg h3]
      · simp only [tallyInsert, if_neg h1]
        by_cases h2 : e.1 = n
        · have h3 : ¬ n = m := fun hh => h1 (h2.trans hh)
          simp only [tallyCount, if_pos h2, if_neg h3]
        · simp only [tallyCount, if_neg h2, ih]

theorem tallyCount_foldl_items (n : String) (items : List OrderItem) :
    ∀ t, tallyCount
        (items.foldl (fun t i => tallyInsert t i.product_name i.quantity) t) n
      = tallyCount t n + itemsUnits items n := by
  induction items with
  | nil => intro t; simp [itemsUnits]
  | cons i rest ih =>
      intro t
      rw [List.foldl_cons, ih, tallyCount_tallyInsert]
      have hiu : itemsUnits (i :: rest) n =
          (if i.product_name = n then i.quantity else 0) + itemsUnits rest n := by
        by_cases h : i.product_name = n <;> simp [itemsUnits, List.filter_cons, h]
      rw [hiu]
      by_cases h : n = i.product_name
      · rw [if_pos h, if_pos h.symm]; omega
      · rw [if_neg h, if_neg (fun hh => h hh.symm)]; omega

theorem tallyCount_product_totals (os : List Order) (n : String) :
    tallyCount (product_totals os) n = unitCount os n := by
  have H : ∀ (os1 : List Order) (t : List (String × Int)),
      tallyCount (os1.foldl orderTally t) n = tallyCount t n + unitCount os1 n := by
    intro os1
    induction os1 with
    | nil => intro t; simp [unitCount]
    | cons o rest ih =>
        intro t
        rw [List.foldl_cons, ih]
        unfold orderTally
        rw [tallyCount_foldl_items]
        have hu : unitCount (o :: rest) n = itemsUnits o.items n + unitCount rest n := by
          simp [unitCount, itemsUnits]
        rw [hu]
        omega
  unfold product_totals
  rw [H os []]
  simp [tallyCount]

theorem tallyInsert_keys (t : List (String × Int)) (n : String) (q : Int) :
    (tallyInsert t n q).map Prod.fst =
      if n ∈ t.map Prod.fst then t.map Prod.fst else t.map Prod.fst ++ [n] := by
  induction t with
  | nil => simp [tallyInsert]
  | cons e rest ih =>
      by_cases h : e.1 = n
      · simp [tallyInsert, h]
      · simp only [tallyInsert, if_neg h, List.map_cons, ih]
        by_cases h2 : n ∈ rest.map Prod.fst
        · rw [if_pos h2, if_pos (List.mem_cons_of_mem _ h2)]
        · rw [if_neg h2,
              if_neg (fun hh => (List.mem_cons.mp hh).elim (fun h3 => h h3.symm) h2)]
          simp

theorem tallyInsert_nodup (t : List (String × Int)) (n : String) (q : Int)
    (h : (t.map Prod.fst).Nodup) : ((tallyInsert t n q).map Prod.fst).Nodup := by
  rw [tallyInsert_keys]
  split
  · exact h
  · next h2 =>
      refine List.Nodup.append h (List.nodup_singleton n) ?_
      intro a ha hb
      rw [List.mem_singleton] at hb
      subst hb
      exact h2 ha

theorem product_totals_keys_nodup (os : List Order) :
    ((product_totals os).map Prod.fst).Nodup := by
  have Hitems : ∀ (items : List OrderItem) (t : List (String × Int)),
      (t.map Prod.fst).Nodup →
      ((items.foldl (fun t i => tallyInsert t i.product_name i.quantity) t).map
        Prod.fst).Nodup := by
    intro items
    induction items with
    | nil => intro t h; exact h
    | cons i rest ih => intro t h; exact ih _ (tallyInsert_nodup _ _ _ h)
  have H : ∀ (os1 : List Order) (t : List (String × Int)),
      (t.map Prod.fst).Nodup → ((os1.foldl orderTally t).map Prod.fst).Nodup := by
    intro os1
    induction os1 with
    | nil => intro t h; exact h
    | cons o rest ih => intro t h; exact ih _ (Hitems o.items t h)
  exact H os [] (by simp)

theorem tallyCount_of_mem (n : String) (q : Int) :
    ∀ t : List (String × Int),
      (t.map Prod.fst).Nodup → (n, q) ∈ t → tallyCount t n = q := by
  intro t
  induction t with
  | nil => intro _ hmem; cases hmem
  | cons e rest ih =>
      intro hnd hmem
      rw [List.map_cons, List.nodup_cons] at hnd
      obtain ⟨hne, hnd2⟩ := hnd
      rcases List.mem_cons.mp hmem with h | h
      · rw [← h]; simp [tallyCount]
      · have hn : n ∈ rest.map Prod.fst := List.mem_map_of_mem Prod.fst h
        have hno : ¬ e.1 = n := fun hh => hne (hh ▸ hn)
        simp only [tallyCount, if_neg hno]
        exact ih hnd2 h

theorem maxTallyFrom_spec (t : List (String × Int)) :
    ∀ (bn : String) (bq : Int),
      (maxTallyFrom bn bq t = bn ∧ maxTallyVal bq t = bq) ∨
      (maxTallyFrom bn bq t, maxTallyVal bq t) ∈ t := by
  induction t with
  | nil => intro bn bq; exact Or.inl ⟨rfl, rfl⟩
  | cons e rest ih =>
      intro bn bq
      by_cases h : e.2 > bq
      · simp only [maxTallyFrom, maxTallyVal, if_pos h]
        rcases ih e.1 e.2 with ⟨h1, h2⟩ | hmem
        · right
          rw [h1, h2]
          exact List.mem_cons_self e rest
        · exact Or.inr (List.mem_cons_of_mem e hmem)
      · simp only [maxTallyFrom, maxTallyVal, if_neg h]
        rcases ih bn bq with h1 | hmem
        · exact Or.inl h1
        · exact Or.inr (List.mem_cons_of_mem e hmem)

theorem maxTallyVal_ge (t : List (String × Int)) :
    ∀ bq : Int, bq ≤ maxTallyVal bq t ∧ ∀ e ∈ t, e.2 ≤ maxTallyVal bq t := by
  induction t with
  | nil =>
      intro bq
      exact ⟨le_refl bq, by intro e he; cases he⟩
  | cons e rest ih =>
      intro bq
      by_cases h : e.2 > bq
      · simp only [maxTallyVal, if_pos h]
        obtain ⟨h1, h2⟩ := ih e.2
        refine ⟨le_trans (le_of_lt h) h1, ?_⟩
        intro f hf
        rcases List.mem_cons.mp hf with hh | hh
        · rw [hh]; exact h1
        · exact h2 f hh
      · simp only [maxTallyVal, if_neg h]
        obtain ⟨h1, h2⟩ := ih bq
        refine ⟨h1, ?_⟩
        intro f hf
        rcases List.mem_cons.mp hf with hh | hh
        · rw [hh]; omega
        · exact h2 f hh

theorem pickMax_spec (t : List (String × Int)) (n : String)
    (h : pickMax t = some n) : ∃ q, (n, q) ∈ t ∧ ∀ e ∈ t, e.2 ≤ q := by
  cases t with
  | nil => simp [pickMax] at h
  | cons e rest =>
      unfold pickMax at h
      injection h with hn
      refine ⟨maxTallyVal e.2 rest, ?_, ?_⟩
      · rcases maxTallyFrom_spec rest e.1 e.2 with ⟨h1, h2⟩ | hmem
        · rw [← hn, h1, h2]
          exact List.mem_cons_self e rest
        · rw [← hn]
          exact List.mem_cons_of_mem e hmem
      · intro f hf
        obtain ⟨h1, h2⟩ := maxTallyVal_ge rest e.2
        rcases List.mem_cons.mp hf with hh | hh
        · rw [hh]; exact h1
        · exact h2 f hh

theorem pickMax_isSome (t : List (String × Int)) (h : t ≠ []) :
    ∃ n, pickMax t = some n := by
  cases t with
  | nil => exact absurd rfl h
  | cons e rest => exact ⟨_, rfl⟩

/-- C5: the daily summary for a date counts exactly the orders with that
order_date, sums exactly their order_total values, tallies units per
product name across all their line items, and most_popular_product is a
product name of maximal tally, or none when there is no tallied item (in
particular when there is no matching order). -/
theorem claim_C5 (os : List Order) (d : String) :
    (generate_daily_summary os d).date = d ∧
    (generate_daily_summary os d).total_orders =
      (os.filter (fun o => o.order_date = d)).length ∧
    (generate_daily_summary os d).total_revenue =
      ((os.filter (fun o => o.order_date = d)).map Order.order_total).sum ∧
    (∀ n, tallyCount (product_totals (os.filter (fun o => o.order_date = d))) n =
      unitCount (os.filter (fun o => o.order_date = d)) n) ∧
    (os.filter (fun o => o.order_date = d) = [] →
      (generate_daily_summary os d).most_popular_product = none) ∧
    (∀ n, (generate_daily_summary os d).most_popular_product = some n →
      (n, unitCount (os.filter (fun o => o.order_date = d)) n) ∈
        product_totals (os.filter (fun o => o.order_date = d)) ∧
      ∀ e ∈ product_totals (os.filter (fun o => o.order_date = d)),
        e.2 ≤ unitCount (os.filter (fun o => o.order_date = d)) n) ∧
    (product_totals (os.filter (fun o => o.order_date = d)) ≠ [] →
      ∃ n, (generate_daily_summary os d).most_popular_product = some n) := by
  refine ⟨rfl, rfl, rfl, fun n => tallyCount_product_totals _ n, ?_, ?_, ?_⟩
  · intro h
    show pickMax (product_totals (os.filter (fun o => o.order_date = d))) = none
    rw [h]
    rfl
  · intro n hn
    have hn2 : pickMax (product_totals (os.filter (fun o => o.order_date = d))) =
        some n := hn
    obtain ⟨q, hmem, hbound⟩ := pickMax_spec _ n hn2
    have hq : tallyCount (product_totals (os.filter (fun o => o.order_date = d))) n
        = q := tallyCount_of_mem n q _ (product_totals_keys_nodup _) hmem
    have hq2 : q = unitCount (os.filter (fun o => o.order_date = d)) n := by
      rw [← hq, tallyCount_product_totals]
    rw [hq2] at hmem hbound
    exact ⟨hmem, hbound⟩
  · intro h
    obtain ⟨n, hn⟩ := pickMax_isSome _ h
    exact ⟨n, hn⟩

theorem claim_C5_witness :
    (generate_daily_summary summaryOrders "2025-11-03").most_popular_product =
      some "Apple" ∧
    (("Apple",
        unitCount (summaryOrders.filter (fun o => o.order_date = "2025-11-03"))
          "Apple") ∈
      product_totals (summaryOrders.filter (fun o => o.order_date = "2025-11-03")) ∧
     ∀ e ∈ product_totals
        (summaryOrders.filter (fun o => o.order_date = "2025-11-03")),
       e.2 ≤ unitCount
          (summaryOrders.filter (fun o => o.order_date = "2025-11-03")) "Apple") :=
  ⟨by decide,
   (claim_C5 summaryOrders "2025-11-03").2.2.2.2.2.1 "Apple" (by decide)⟩

end GreenLeaf
